import Mathlib

/-!
Shallow embedding of `pkg/store/consul.go`, the Consul key-value store
client (CRUD, watch loop, sessions/locks, CAS).

The backend (`api.Client`) is modelled by oracle functions passed as
arguments: a CRUD call receives the backend's response for that call, the
watch loop receives a list of per-iteration backend responses.  Go maps
whose entries are set to `nil` (rather than deleted) are modelled as
association lists over `Option`-valued entries: a key present with value
`none` corresponds to a map entry holding a nil pointer, which Go lookup
still reports as present (`ok = true`).
-/

namespace ConsulStore

/-- The error constants used by `consul.go`: `ErrKeyNotFound`,
`ErrKeyModified`, `ErrCannotLock`, `ErrSessionUndefined`,
`ErrWatchDoesNotExist`, plus opaque backend/transport errors
(`backend n`), which are distinct from every named constant. -/
inductive Err where
  | keyNotFound
  | keyModified
  | cannotLock
  | sessionUndefined
  | watchDoesNotExist
  | backend (code : Nat)
  deriving DecidableEq, Repr

/-- `api.KVPair` restricted to the fields `consul.go` populates:
`Key`, `Value`, `ModifyIndex`, `Session`.  Byte slices are `List Nat`. -/
structure KVPair where
  key : String
  value : List Nat
  modifyIndex : Nat
  session : String
  deriving DecidableEq, Repr

/-- Modelled from the spec: `partialFormat` lives in the repository's
`pkg/store/store.go`, which is not under `src/`; the spec's data-model
invariant says the internal representation "strips a single leading
separator; no other normalization is performed". -/
def partialFormat (key : String) : String :=
  match key.data with
  | '/' :: rest => String.mk rest
  | _ => key

/-- Go map lookup (`v, ok := m[k]`): `none` means `ok = false`
(key absent); `some v` means the key is present holding `v` (which may
itself be a nil pointer when the value type is `Option _`). -/
def mapFind {α : Type} : List (String × α) → String → Option α
  | [], _ => none
  | p :: rest, k => if p.1 = k then some p.2 else mapFind rest k

/-- Go map assignment `m[k] = v`: overwrites the entry if the key is
present, otherwise appends it. -/
def mapSet {α : Type} (m : List (String × α)) (k : String) (v : α) :
    List (String × α) :=
  match m with
  | [] => [(k, v)]
  | p :: rest =>
    if p.1 = k then (k, v) :: rest else p :: mapSet rest k v

/-- The `Watch` struct of `consul.go` (line 28): `LastIndex` and
`Interval`.  The `EventChan` field is the loop's signalling channel and is
represented by the loop model itself, not stored. -/
structure Watch where
  lastIndex : Nat
  interval : Nat
  deriving DecidableEq, Repr

/-- The `Consul.watches` map: Go `map[string]*Watch`, so a present entry
may hold a nil pointer (`some none`). -/
abbrev WatchMap := List (String × Option Watch)

/-- The `Consul.sessions` map: Go `map[string]*api.Session`.  The session
handle carries no data the client inspects, so it is `Unit`; a present
entry holding a nil pointer is `some none`. -/
abbrev SessionMap := List (String × Option Unit)

/-- Response of the backend `client.KV().Get`: either a transport error,
or a pair (`none` when the key is absent, mirroring a nil `*KVPair`)
together with `meta.LastIndex`. -/
abbrev KVGetResp := Except Err (Option (List Nat) × Nat)

namespace Consul

/-- `Consul.Get` (consul.go line 99): returns `(value, lastIndex, err)`.
On a backend error the error is propagated; on a nil pair it returns
`ErrKeyNotFound`. -/
def Get (kvGet : String → KVGetResp) (key : String) :
    List Nat × Nat × Option Err :=
  match kvGet (partialFormat key) with
  | .error e => ([], 0, some e)
  | .ok (none, _) => ([], 0, some Err.keyNotFound)
  | .ok (some v, idx) => (v, idx, none)

/-- `Consul.Exists` (consul.go line 127): calls `Get` and returns
`(false, err)` only when `err != nil && err == ErrKeyNotFound`; every
other outcome — including a failed backend read — yields `(true, nil)`. -/
def Exists (kvGet : String → KVGetResp) (key : String) :
    Bool × Option Err :=
  match (Get kvGet key).2.2 with
  | some e => if e = Err.keyNotFound then (false, some e) else (true, none)
  | none => (true, none)

/-- `Consul.GetRange` (consul.go line 136): lists under the formatted
prefix, then skips every pair whose backend key equals the *raw* prefix
argument (`pair.Key == prefix`, the unformatted string). -/
def GetRange (kvList : String → Except Err (List (String × List Nat)))
    (pre : String) : List (List Nat) × Option Err :=
  match kvList (partialFormat pre) with
  | .error e => ([], some e)
  | .ok pairs =>
    ((pairs.filter (fun p => ¬ (p.1 = pre))).map (fun p => p.2), none)

/-- `Consul.AtomicPut` (consul.go line 280): builds a `KVPair` with the
formatted key, the new value and `ModifyIndex = index`, then calls the
backend CAS.  Backend errors propagate unmodified; a rejected CAS maps to
`ErrKeyModified`; an applied CAS yields `(true, nil)`. -/
def AtomicPut (cas : KVPair → Except Err Bool) (key : String)
    (newValue : List Nat) (index : Nat) : Bool × Option Err :=
  let p : KVPair :=
    { key := partialFormat key, value := newValue,
      modifyIndex := index, session := "" }
  match cas p with
  | .error e => (false, some e)
  | .ok false => (false, some Err.keyModified)
  | .ok true => (true, none)

/-- `Consul.AtomicDelete` (consul.go line 292): same shape as `AtomicPut`
over the backend `DeleteCAS` (no value in the pair). -/
def AtomicDelete (deleteCas : KVPair → Except Err Bool) (key : String)
    (index : Nat) : Bool × Option Err :=
  let p : KVPair :=
    { key := partialFormat key, value := [],
      modifyIndex := index, session := "" }
  match deleteCas p with
  | .error e => (false, some e)
  | .ok false => (false, some Err.keyModified)
  | .ok true => (true, none)

/-- `Consul.CancelWatch` (consul.go line 181): formats the key; if the
key is absent from the watches map returns `ErrWatchDoesNotExist`;
otherwise assigns `s.watches[key] = nil` — the entry is overwritten with a
nil pointer, not deleted — and returns nil. -/
def CancelWatch (watches : WatchMap) (key : String) :
    WatchMap × Option Err :=
  let k := partialFormat key
  match mapFind watches k with
  | none => (watches, some Err.watchDoesNotExist)
  | some _ => (mapSet watches k none, none)

/-- `Consul.Release` (consul.go line 267) can end three ways: return
`ErrSessionUndefined`, succeed (new session map, the backend session ids
destroyed by the call), or dereference a nil session handle (a Go runtime
panic). -/
inductive ReleaseOutcome where
  | err (e : Err)
  | ok (sessions : SessionMap) (destroyed : List String)
  | nilDeref
  deriving DecidableEq, Repr

/-- `Consul.Release` (consul.go line 267): if the id is absent from the
sessions map returns `ErrSessionUndefined`; otherwise reads the stored
handle and calls `session.Destroy` on it — a nil stored handle (entry
previously overwritten with nil) panics — then assigns
`s.sessions[id] = nil` (again: overwrite with nil, not delete). -/
def Release (sessions : SessionMap) (id : String) : ReleaseOutcome :=
  match mapFind sessions id with
  | none => .err Err.sessionUndefined
  | some none => .nilDeref
  | some (some _) => .ok (mapSet sessions id none) [id]

/-- Result of `Consul.Acquire`: the updated sessions map, the backend
session ids destroyed during the call, and the returned `(id, err)`. -/
structure AcquireResult where
  sessions : SessionMap
  destroyed : List String
  id : String
  err : Option Err
  deriving DecidableEq, Repr

/-- `Consul.Acquire` (consul.go line 245): creates a backend session
(`CreateNoChecks`), records it in the sessions map, then attempts the
session-tagged conditional write.  No path of the function destroys the
session: on a backend error or a rejected acquire it returns with the
session still alive and still recorded. -/
def Acquire (create : Except Err String) (acq : KVPair → Except Err Bool)
    (sessions : SessionMap) (key : String) (value : List Nat) :
    AcquireResult :=
  let k := partialFormat key
  match create with
  | .error e => { sessions := sessions, destroyed := [], id := "", err := some e }
  | .ok id =>
    let sessions' := mapSet sessions id (some ())
    let p : KVPair := { key := k, value := value, modifyIndex := 0, session := id }
    match acq p with
    | .error e =>
      { sessions := sessions', destroyed := [], id := "", err := some e }
    | .ok false =>
      { sessions := sessions', destroyed := [],
        id := "", err := some Err.cannotLock }
    | .ok true =>
      { sessions := sessions', destroyed := [], id := id, err := none }

end Consul

/-- One iteration's backend behaviour for a running watch.  Each loop
cycle of `waitForChange` (consul.go line 192) issues one blocking
long-poll `KV().Get`; `pollErr e` is that read failing, `pollOk idx snap`
is it succeeding with `meta.LastIndex = idx`, in which case the driving
`Watch` loop (line 157) wakes up and performs the snapshot `s.Get`, whose
backend response is `snap`. -/
inductive BackendStep where
  | pollErr (e : Err)
  | pollOk (idx : Nat) (snap : KVGetResp)
  deriving Repr

/-- How a finite trace of a watch run ended: `returned e?` means the
blocking `Watch` call returned (with `nil` when `e? = none`); `running`
means the supplied backend trace was exhausted with the loop still alive;
`panicked` marks the nil-pointer dereference `watch.LastIndex` on a
watches-map entry holding a nil pointer. -/
inductive WatchOutcome where
  | returned (e : Option Err)
  | running
  | panicked
  deriving DecidableEq, Repr

/-- Observable result of running a watch against a backend trace: the
final watches map, the payloads passed to the callback (the re-fetched
value of each delivery), the successive values assigned to
`watch.LastIndex` (each also sent on the event channel), and how the run
ended. -/
structure WatchRun where
  watches : WatchMap
  delivered : List (List Nat)
  indices : List Nat
  outcome : WatchOutcome
  deriving DecidableEq, Repr

namespace Consul

/-- The lockstep composition of the `waitForChange` goroutine
(consul.go line 192) with the `for range eventChan` body of `Watch`
(line 163), one `BackendStep` per goroutine iteration.  The unbuffered
channel makes the two loops alternate: a send on `ch` completes only when
the `Watch` body receives, and the model lets the received event's
snapshot `Get` and callback run before the goroutine's next iteration.

Per iteration, following the source: the goroutine re-reads
`s.watches[key]` — absent breaks (channel closes, `Watch` returns nil),
a nil entry panics at `watch.LastIndex`; then the long-poll read — an
error breaks (channel closes, `Watch` returns nil, the error is only
logged); on success `watch.LastIndex = meta.LastIndex` is stored and sent,
and the `Watch` body runs `s.Get(key)` — an error there assigns
`s.watches[key] = nil` and returns the error from `Watch`; otherwise the
callback fires and the loops continue. -/
def watchSteps (key : String) : WatchMap → List BackendStep → WatchRun
  | watches, [] =>
    { watches := watches, delivered := [], indices := [], outcome := .running }
  | watches, step :: rest =>
    match mapFind watches key with
    | none =>
      { watches := watches, delivered := [], indices := [],
        outcome := .returned none }
    | some none =>
      { watches := watches, delivered := [], indices := [],
        outcome := .panicked }
    | some (some w) =>
      match step with
      | .pollErr _ =>
        { watches := watches, delivered := [], indices := [],
          outcome := .returned none }
      | .pollOk idx snap =>
        let watches' := mapSet watches key (some { w with lastIndex := idx })
        match (Get (fun _ => snap) key).2.2 with
        | some e =>
          { watches := mapSet watches' key none, delivered := [],
            indices := [idx], outcome := .returned (some e) }
        | none =>
          let r := watchSteps key watches' rest
          { watches := r.watches,
            delivered := (Get (fun _ => snap) key).1 :: r.delivered,
            indices := idx :: r.indices, outcome := r.outcome }

/-- `Consul.Watch` (consul.go line 157): formats the key, spawns
`waitForChange` and registers `&Watch{Interval: heartbeat, ...}` (a fresh
struct, so `LastIndex` starts at its zero value 0), then drives the
event loop.  The model registers the entry before the goroutine's first
map read (the schedule in which the goroutine loses the startup race is
the `mapFind = none` branch of `watchSteps`). -/
def Watch (key : String) (heartbeat : Nat) (watches : WatchMap)
    (steps : List BackendStep) : WatchRun :=
  let k := partialFormat key
  watchSteps k (mapSet watches k (some { lastIndex := 0, interval := heartbeat })) steps

end Consul

/-- The options recognised by `Consul.SetOptions` (consul.go line 63):
a `*tls.Config` (possibly nil), a `time.Duration`, or anything else
(logged and ignored). -/
inductive ConsulOpt where
  | tls (cfg : Option Unit)
  | timeout (d : Nat)
  | other
  deriving DecidableEq, Repr

/-- The `api.Config` fields `consul.go` touches: `Address`, `Scheme`,
`WaitTime`, and whether `SetTLS` installed a TLS transport. -/
structure Config where
  address : String
  scheme : String
  waitTime : Nat
  tlsTransport : Bool
  deriving DecidableEq, Repr

/-- `Consul.SetTLS` (line 83): a non-nil `*tls.Config` installs the TLS
transport and flips the scheme to https; nil is a no-op. -/
def SetTLS (c : Config) (t : Option Unit) : Config :=
  match t with
  | some _ => { c with tlsTransport := true, scheme := "https" }
  | none => c

/-- `Consul.SetOptions` (line 63) folded over the option list. -/
def SetOptions (c : Config) : List ConsulOpt → Config
  | [] => c
  | .tls t :: rest => SetOptions (SetTLS c t) rest
  | .timeout d :: rest => SetOptions { c with waitTime := d } rest
  | .other :: rest => SetOptions c rest

/-- `InitializeConsul` (consul.go line 36): builds the default config,
assigns `config.Address = endpoints[0]` — an unguarded index, so an empty
list is a Go index-out-of-range panic, modelled as `none` — applies the
options, then creates the backend client (`newClient` is that
constructor's outcome); a constructor error is returned as `(nil, err)`. -/
def InitializeConsul (newClient : Except Err Unit) (endpoints : List String)
    (options : List ConsulOpt) : Option (Except Err Config) :=
  match endpoints[0]? with
  | none => none
  | some addr =>
    let config : Config :=
      { address := addr, scheme := "http", waitTime := 0, tlsTransport := false }
    let config := SetOptions config options
    some (match newClient with
      | .error e => .error e
      | .ok _ => .ok config)

/-! ## Basic facts about the Go-map model -/

theorem mapFind_mapSet_self {α : Type} (m : List (String × α)) (k : String) (v : α) :
    mapFind (mapSet m k v) k = some v := by
  induction m with
  | nil => simp [mapSet, mapFind]
  | cons p rest ih =>
    by_cases h : p.1 = k
    · simp [mapSet, h, mapFind]
    · simp [mapSet, h, mapFind, ih]

theorem mapSet_mapSet {α : Type} (m : List (String × α)) (k : String) (v v' : α) :
    mapSet (mapSet m k v) k v' = mapSet m k v' := by
  induction m with
  | nil => simp [mapSet]
  | cons p rest ih =>
    by_cases h : p.1 = k
    · simp [mapSet, h]
    · simp [mapSet, h, ih]

/-! ## Theorems for the claims -/

/-- C3: `AtomicPut` returns `(true, nil)` when the backend applies the
conditional write, `(false, ErrKeyModified)` when the backend rejects it
for a version mismatch, and `(false, e)` with the backend error `e`
unmodified on a connectivity failure; `AtomicDelete` satisfies the same
contract for conditional deletes. -/
theorem atomic_mutation_contract (cas deleteCas : KVPair → Except Err Bool)
    (key : String) (newValue : List Nat) (index : Nat) :
    (cas { key := partialFormat key, value := newValue,
           modifyIndex := index, session := "" } = .ok true →
       Consul.AtomicPut cas key newValue index = (true, none)) ∧
    (cas { key := partialFormat key, value := newValue,
           modifyIndex := index, session := "" } = .ok false →
       Consul.AtomicPut cas key newValue index = (false, some Err.keyModified)) ∧
    (∀ e, cas { key := partialFormat key, value := newValue,
                modifyIndex := index, session := "" } = .error e →
       Consul.AtomicPut cas key newValue index = (false, some e)) ∧
    (deleteCas { key := partialFormat key, value := [],
                 modifyIndex := index, session := "" } = .ok true →
       Consul.AtomicDelete deleteCas key index = (true, none)) ∧
    (deleteCas { key := partialFormat key, value := [],
                 modifyIndex := index, session := "" } = .ok false →
       Consul.AtomicDelete deleteCas key index = (false, some Err.keyModified)) ∧
    (∀ e, deleteCas { key := partialFormat key, value := [],
                      modifyIndex := index, session := "" } = .error e →
       Consul.AtomicDelete deleteCas key index = (false, some e)) := by
  refine ⟨fun h => ?_, fun h => ?_, fun e h => ?_, fun h => ?_, fun h => ?_,
    fun e h => ?_⟩ <;>
    simp [Consul.AtomicPut, Consul.AtomicDelete, h]

/-- Witness for C3: the three outcomes of each operation at concrete
inputs. -/
theorem atomic_mutation_contract_witness :
    Consul.AtomicPut (fun _ => .ok true) "k" [1] 3 = (true, none) ∧
    Consul.AtomicPut (fun _ => .ok false) "k" [1] 3 =
      (false, some Err.keyModified) ∧
    Consul.AtomicPut (fun _ => .error (Err.backend 9)) "k" [1] 3 =
      (false, some (Err.backend 9)) ∧
    Consul.AtomicDelete (fun _ => .ok true) "k" 3 = (true, none) ∧
    Consul.AtomicDelete (fun _ => .ok false) "k" 3 =
      (false, some Err.keyModified) ∧
    Consul.AtomicDelete (fun _ => .error (Err.backend 9)) "k" 3 =
      (false, some (Err.backend 9)) :=
  ⟨(atomic_mutation_contract (fun _ => .ok true) (fun _ => .ok true)
      "k" [1] 3).1 rfl,
   (atomic_mutation_contract (fun _ => .ok false) (fun _ => .ok false)
      "k" [1] 3).2.1 rfl,
   (atomic_mutation_contract (fun _ => .error (Err.backend 9))
      (fun _ => .error (Err.backend 9)) "k" [1] 3).2.2.1 (Err.backend 9) rfl,
   (atomic_mutation_contract (fun _ => .ok true) (fun _ => .ok true)
      "k" [1] 3).2.2.2.1 rfl,
   (atomic_mutation_contract (fun _ => .ok false) (fun _ => .ok false)
      "k" [1] 3).2.2.2.2.1 rfl,
   (atomic_mutation_contract (fun _ => .error (Err.backend 9))
      (fun _ => .error (Err.backend 9)) "k" [1] 3).2.2.2.2.2 (Err.backend 9) rfl⟩

/-- C4: when the backend session creation succeeds and the
session-tagged conditional write is rejected (another live session holds
the key), `Acquire` returns `ErrCannotLock`, destroys no backend session,
and the session created beforehand is still recorded in the session map
(the orphaned session survives the failed acquire). -/
theorem acquire_rejected_orphans_session
    (create : Except Err String) (acq : KVPair → Except Err Bool)
    (sessions : SessionMap) (key : String) (value : List Nat) (id : String)
    (hc : create = .ok id)
    (ha : acq { key := partialFormat key, value := value,
                modifyIndex := 0, session := id } = .ok false) :
    Consul.Acquire create acq sessions key value =
      { sessions := mapSet sessions id (some ()), destroyed := [],
        id := "", err := some Err.cannotLock } ∧
    (Consul.Acquire create acq sessions key value).destroyed = [] ∧
    mapFind (Consul.Acquire create acq sessions key value).sessions id =
      some (some ()) := by
  have h : Consul.Acquire create acq sessions key value =
      { sessions := mapSet sessions id (some ()), destroyed := [],
        id := "", err := some Err.cannotLock } := by
    simp [Consul.Acquire, hc, ha]
  refine ⟨h, by rw [h], by rw [h]; exact mapFind_mapSet_self _ _ _⟩

/-- Witness for C4: a concrete rejected acquire. -/
theorem acquire_rejected_orphans_session_witness :
    Consul.Acquire (.ok "s1") (fun _ => .ok false) [] "k" [7] =
      { sessions := [("s1", some ())], destroyed := [],
        id := "", err := some Err.cannotLock } :=
  (acquire_rejected_orphans_session (.ok "s1") (fun _ => .ok false)
    [] "k" [7] "s1" rfl rfl).1

theorem SetOptions_address (opts : List ConsulOpt) (c : Config) :
    (SetOptions c opts).address = c.address := by
  induction opts generalizing c with
  | nil => rfl
  | cons o rest ih =>
    cases o with
    | tls t => cases t <;> simp [SetOptions, SetTLS, ih]
    | timeout d => simp [SetOptions, ih]
    | other => simp [SetOptions, ih]

/-- C10: `InitializeConsul` reads `endpoints[0]` as the backend address
unconditionally and ignores every further endpoint; the index is in
bounds exactly when the endpoint list is non-empty, and an empty list
hits the unguarded out-of-bounds access (the `none` outcome of the
model, a Go index-out-of-range panic). -/
theorem initializeConsul_reads_first_endpoint (newClient : Except Err Unit)
    (endpoints : List String) (options : List ConsulOpt) :
    (endpoints = [] → InitializeConsul newClient endpoints options = none) ∧
    (∀ e rest, endpoints = e :: rest →
       InitializeConsul newClient endpoints options =
         InitializeConsul newClient [e] options ∧
       (InitializeConsul newClient endpoints options).isSome = true ∧
       (∀ c, InitializeConsul newClient endpoints options = some (.ok c) →
          c.address = e)) := by
  constructor
  · rintro rfl
    rfl
  · rintro e rest rfl
    refine ⟨?_, ?_, ?_⟩
    · simp [InitializeConsul]
    · cases newClient <;> simp [InitializeConsul]
    · intro c hc
      cases newClient with
      | error er => simp [InitializeConsul] at hc
      | ok u =>
        simp only [InitializeConsul] at hc
        simp at hc
        rw [← hc]
        exact SetOptions_address _ _

/-- Witness for C10: a two-endpoint list and an empty list. -/
theorem initializeConsul_reads_first_endpoint_witness :
    InitializeConsul (.ok ()) ([] : List String) [] = none ∧
    InitializeConsul (.ok ()) ["a", "b"] [] =
      InitializeConsul (.ok ()) ["a"] [] ∧
    ({ address := "a", scheme := "http", waitTime := 0,
       tlsTransport := false } : Config).address = "a" :=
  ⟨(initializeConsul_reads_first_endpoint (.ok ()) [] []).1 rfl,
   ((initializeConsul_reads_first_endpoint (.ok ()) ["a", "b"] []).2
      "a" ["b"] rfl).1,
   ((initializeConsul_reads_first_endpoint (.ok ()) ["a", "b"] []).2
      "a" ["b"] rfl).2.2
     { address := "a", scheme := "http", waitTime := 0, tlsTransport := false }
     rfl⟩

/-- C7 counterexample: a backend connectivity failure (`backend 7`,
distinct from `ErrKeyNotFound`) during the underlying `Get` is swallowed
by `Exists`, which reports the successful result `(true, nil)` — the
condition `err != nil && err == ErrKeyNotFound` lets every other error
fall through to `return true, nil` (consul.go line 129-132).  This
refutes the claim that such errors surface unmodified and that `Exists`
never reports success when the read failed. -/
theorem exists_counterexample :
    Consul.Exists (fun _ => .error (Err.backend 7)) "k" = (true, none) ∧
    Consul.Exists (fun _ => .error (Err.backend 7)) "k" ≠
      (false, some (Err.backend 7)) := by
  constructor
  · rfl
  · intro h
    simp [Consul.Exists, Consul.Get] at h

/-- C7 amended: `Exists` surfaces only the `ErrKeyNotFound` miss of the
underlying `Get` (as `(false, ErrKeyNotFound)`); every other backend
error — connectivity errors included — is suppressed and `Exists`
reports `(true, nil)`, exactly as it does on a successful read. -/
theorem exists_propagation (kvGet : String → KVGetResp) (key : String) :
    (∀ e, kvGet (partialFormat key) = .error e → e ≠ Err.keyNotFound →
       Consul.Exists kvGet key = (true, none)) ∧
    ((Consul.Get kvGet key).2.2 = some Err.keyNotFound →
       Consul.Exists kvGet key = (false, some Err.keyNotFound)) ∧
    (∀ e, (Consul.Get kvGet key).2.2 = some e → e ≠ Err.keyNotFound →
       Consul.Exists kvGet key = (true, none)) ∧
    ((Consul.Get kvGet key).2.2 = none →
       Consul.Exists kvGet key = (true, none)) := by
  refine ⟨fun e h hne => ?_, fun h => ?_, fun e h hne => ?_, fun h => ?_⟩
  · simp [Consul.Exists, Consul.Get, h, hne]
  · simp [Consul.Exists, h]
  · simp [Consul.Exists, h, hne]
  · simp [Consul.Exists, h]

/-- Witness for C7's amended theorem: the three reachable outcomes at
concrete inputs. -/
theorem exists_propagation_witness :
    Consul.Exists (fun _ => .error (Err.backend 7)) "k" = (true, none) ∧
    Consul.Exists (fun _ => .ok (none, 0)) "k" =
      (false, some Err.keyNotFound) ∧
    Consul.Exists (fun _ => .ok (some [1], 4)) "k" = (true, none) :=
  ⟨(exists_propagation (fun _ => .error (Err.backend 7)) "k").1
     (Err.backend 7) rfl (by simp),
   (exists_propagation (fun _ => .ok (none, 0)) "k").2.1 rfl,
   (exists_propagation (fun _ => .ok (some [1], 4)) "k").2.2.2 rfl⟩

/-- The spec's description of `GetRange` ("lists all direct and nested
entries under `prefix`, excluding the exact `prefix` key itself if it
exists as its own entry"), stated over the backend's returned pairs:
keys are compared in the stored (formatted) representation, since that
is how the prefix's own entry is keyed on the backend. -/
def getRangeSpec (pairs : List (String × List Nat)) (pre : String) :
    List (List Nat) :=
  (pairs.filter (fun p => ¬ (p.1 = partialFormat pre))).map (fun p => p.2)

/-- C8 counterexample: for the prefix `"/a"` the backend is queried with
the formatted key `"a"` and returns the entry `("a", [1])` — the
prefix's own entry — together with `("a/b", [2])`.  The claim requires
the prefix's own value `[1]` to be excluded (`getRangeSpec` yields
`[[2]]`), but the source compares `pair.Key == prefix` against the *raw*
argument `"/a"` (consul.go line 142), which matches nothing, so both
values are returned. -/
theorem getRange_counterexample :
    (Consul.GetRange
        (fun q => if q = "a"
          then .ok [("a", [1]), ("a/b", [2])] else .ok []) "/a").1 =
      [[1], [2]] ∧
    getRangeSpec [("a", [1]), ("a/b", [2])] "/a" = [[2]] ∧
    (Consul.GetRange
        (fun q => if q = "a"
          then .ok [("a", [1]), ("a/b", [2])] else .ok []) "/a").1 ≠
      getRangeSpec [("a", [1]), ("a/b", [2])] "/a" := by
  refine ⟨?_, ?_, ?_⟩ <;> decide

/-- C8 amended: `GetRange` returns the values of all entries the backend
lists under the formatted prefix, in backend order, excluding entries
whose stored key equals the *raw* prefix argument; this coincides with
the spec's exclusion of the prefix's own entry exactly when the supplied
prefix carries no leading separator (so that formatting leaves it
unchanged) — with a leading separator the prefix's own entry is
included. -/
theorem getRange_raw_exclusion
    (kvList : String → Except Err (List (String × List Nat)))
    (pre : String) (pairs : List (String × List Nat))
    (h : kvList (partialFormat pre) = .ok pairs) :
    Consul.GetRange kvList pre =
      ((pairs.filter (fun p => ¬ (p.1 = pre))).map (fun p => p.2), none) ∧
    (partialFormat pre = pre →
       (Consul.GetRange kvList pre).1 = getRangeSpec pairs pre) := by
  refine ⟨by simp [Consul.GetRange, h], fun hp => ?_⟩
  have h2 : kvList pre = .ok pairs := hp ▸ h
  simp [Consul.GetRange, getRangeSpec, hp, h2]

/-- Witness for C8's amended theorem: a separator-free prefix, on which
the code and the spec's exclusion agree. -/
theorem getRange_raw_exclusion_witness :
    Consul.GetRange
        (fun q => if q = "a"
          then .ok [("a", [1]), ("a/b", [2])] else .ok []) "a" =
      ([[2]], none) ∧
    (Consul.GetRange
        (fun q => if q = "a"
          then .ok [("a", [1]), ("a/b", [2])] else .ok []) "a").1 =
      getRangeSpec [("a", [1]), ("a/b", [2])] "a" := by
  have h := getRange_raw_exclusion
    (fun q => if q = "a" then .ok [("a", [1]), ("a/b", [2])] else .ok [])
    "a" [("a", [1]), ("a/b", [2])] rfl
  exact ⟨by rw [h.1]; decide, h.2 (by decide)⟩

/-- C5 counterexample: with the watch for `"k"` registered, the first
`CancelWatch "k"` succeeds but only overwrites the entry with a nil
pointer (`some none`) instead of deleting it, so the key is still
present; the second `CancelWatch "k"` therefore passes the presence
check and succeeds again (returns nil), instead of failing with
`ErrWatchDoesNotExist` as the claim requires. -/
theorem cancelWatch_counterexample :
    Consul.CancelWatch [("k", some { lastIndex := 0, interval := 5 })] "k" =
      ([("k", none)], none) ∧
    Consul.CancelWatch [("k", none)] "k" = ([("k", none)], none) ∧
    mapFind ([("k", none)] : WatchMap) "k" = some none ∧
    (Consul.CancelWatch [("k", none)] "k").2 ≠
      some Err.watchDoesNotExist := by
  refine ⟨?_, ?_, ?_, ?_⟩ <;> decide

/-- C5 amended: `CancelWatch` fails with `ErrWatchDoesNotExist` exactly
when the (formatted) target key is absent from the watches map; on
success it overwrites the entry with a nil pointer but leaves the key
present, so a second `CancelWatch` on the same target also succeeds
(returning nil) rather than failing with `ErrWatchDoesNotExist`. -/
theorem cancelWatch_nils_entry (watches : WatchMap) (key : String) :
    (mapFind watches (partialFormat key) = none →
       Consul.CancelWatch watches key =
         (watches, some Err.watchDoesNotExist)) ∧
    (∀ w, mapFind watches (partialFormat key) = some w →
       Consul.CancelWatch watches key =
         (mapSet watches (partialFormat key) none, none) ∧
       mapFind (mapSet watches (partialFormat key) none)
         (partialFormat key) = some none ∧
       Consul.CancelWatch (mapSet watches (partialFormat key) none) key =
         (mapSet watches (partialFormat key) none, none)) := by
  constructor
  · intro h
    simp [Consul.CancelWatch, h]
  · intro w h
    refine ⟨by simp [Consul.CancelWatch, h], mapFind_mapSet_self _ _ _, ?_⟩
    simp [Consul.CancelWatch, mapFind_mapSet_self, mapSet_mapSet]

/-- Witness for C5's amended theorem: cancel of an unregistered key and
double cancel of a registered one. -/
theorem cancelWatch_nils_entry_witness :
    Consul.CancelWatch ([] : WatchMap) "k" =
      ([], some Err.watchDoesNotExist) ∧
    Consul.CancelWatch [("k", some { lastIndex := 0, interval := 5 })] "k" =
      ([("k", none)], none) ∧
    Consul.CancelWatch [("k", none)] "k" = ([("k", none)], none) := by
  refine ⟨(cancelWatch_nils_entry [] "k").1 (by decide), ?_, ?_⟩
  · have h := ((cancelWatch_nils_entry
      [("k", some { lastIndex := 0, interval := 5 })] "k").2
      (some { lastIndex := 0, interval := 5 }) (by decide)).1
    rw [h]; decide
  · have h := ((cancelWatch_nils_entry
      [("k", some { lastIndex := 0, interval := 5 })] "k").2
      (some { lastIndex := 0, interval := 5 }) (by decide)).2.2
    have e1 : mapSet ([("k", some { lastIndex := 0, interval := 5 })] : WatchMap)
        (partialFormat "k") none = [("k", none)] := by decide
    rw [e1] at h
    exact h

/-- C6 counterexample: after a successful `Release "s1"` the sessions
map still contains the id, bound to a nil handle; a second
`Release "s1"` therefore passes the presence check
(`_, ok := s.sessions[id]` reports present) and calls
`session.Destroy` on the nil handle — a Go nil-pointer panic — instead
of failing with `ErrSessionUndefined` as the claim requires. -/
theorem release_counterexample :
    Consul.Release [("s1", some ())] "s1" =
      .ok [("s1", none)] ["s1"] ∧
    Consul.Release [("s1", none)] "s1" = .nilDeref ∧
    Consul.Release [("s1", none)] "s1" ≠
      .err Err.sessionUndefined := by
  refine ⟨?_, ?_, ?_⟩ <;> decide

/-- C6 amended: `Release` fails with `ErrSessionUndefined` exactly when
the id is absent from this client's session map; on success it destroys
the backend session and overwrites the local entry with a nil handle —
the id remains present — so a second `Release` of the same id passes the
presence check and dereferences the nil handle (a runtime panic),
rather than failing with `ErrSessionUndefined`. -/
theorem release_nils_entry (sessions : SessionMap) (id : String) :
    (mapFind sessions id = none →
       Consul.Release sessions id = .err Err.sessionUndefined) ∧
    (mapFind sessions id = some (some ()) →
       Consul.Release sessions id = .ok (mapSet sessions id none) [id] ∧
       mapFind (mapSet sessions id none) id = some none ∧
       Consul.Release (mapSet sessions id none) id = .nilDeref) := by
  constructor
  · intro h
    simp [Consul.Release, h]
  · intro h
    refine ⟨by simp [Consul.Release, h], mapFind_mapSet_self _ _ _, ?_⟩
    simp [Consul.Release, mapFind_mapSet_self]

/-- Witness for C6's amended theorem: release of an untracked id, then a
successful release followed by the nil-handle second release. -/
theorem release_nils_entry_witness :
    Consul.Release ([] : SessionMap) "s1" = .err Err.sessionUndefined ∧
    Consul.Release [("s1", some ())] "s1" = .ok [("s1", none)] ["s1"] ∧
    Consul.Release [("s1", none)] "s1" = .nilDeref := by
  refine ⟨(release_nils_entry [] "s1").1 (by decide), ?_, ?_⟩
  · have h := ((release_nils_entry [("s1", some ())] "s1").2 (by decide)).1
    have e1 : mapSet [("s1", some ())] "s1" none = [("s1", none)] := by decide
    rw [e1] at h
    exact h
  · have h := ((release_nils_entry [("s1", some ())] "s1").2 (by decide)).2.2
    have e1 : mapSet [("s1", some ())] "s1" none = [("s1", none)] := by decide
    rw [e1] at h
    exact h

/-! ## The watch loop -/

/-- The `meta.LastIndex` values reported by the backend's successful
long-poll reads, in order. -/
def pollIdxs : List BackendStep → List Nat
  | [] => []
  | .pollErr _ :: rest => pollIdxs rest
  | .pollOk idx _ :: rest => idx :: pollIdxs rest

/-- 1 when the run ended with `Watch` returning an error, else 0. -/
def errFlag : WatchOutcome → Nat
  | .returned (some _) => 1
  | _ => 0

theorem watchSteps_returned_err (key : String) (steps : List BackendStep) :
    ∀ (m : WatchMap) (e : Err),
      (Consul.watchSteps key m steps).outcome = .returned (some e) →
      mapFind (Consul.watchSteps key m steps).watches key = some none := by
  induction steps with
  | nil =>
    intro m e h
    simp [Consul.watchSteps] at h
  | cons step rest ih =>
    intro m e h
    cases hf : mapFind m key with
    | none => simp [Consul.watchSteps, hf] at h
    | some ow =>
      cases ow with
      | none => simp [Consul.watchSteps, hf] at h
      | some w =>
        cases step with
        | pollErr e2 => simp [Consul.watchSteps, hf] at h
        | pollOk idx snap =>
          cases hg : (Consul.Get (fun _ => snap) key).2.2 with
          | some e2 =>
            simp [Consul.watchSteps, hf, hg, mapFind_mapSet_self]
          | none =>
            simp [Consul.watchSteps, hf, hg] at h ⊢
            exact ih _ e h

theorem watchSteps_indices_consumed (key : String) (steps : List BackendStep) :
    ∀ m : WatchMap,
      ∃ t, pollIdxs steps = (Consul.watchSteps key m steps).indices ++ t := by
  induction steps with
  | nil => intro m; exact ⟨[], by simp [Consul.watchSteps, pollIdxs]⟩
  | cons step rest ih =>
    intro m
    cases hf : mapFind m key with
    | none =>
      exact ⟨pollIdxs (step :: rest), by simp [Consul.watchSteps, hf]⟩
    | some ow =>
      cases ow with
      | none =>
        exact ⟨pollIdxs (step :: rest), by simp [Consul.watchSteps, hf]⟩
      | some w =>
        cases step with
        | pollErr e =>
          exact ⟨pollIdxs rest, by simp [Consul.watchSteps, hf, pollIdxs]⟩
        | pollOk idx snap =>
          cases hg : (Consul.Get (fun _ => snap) key).2.2 with
          | some e =>
            exact ⟨pollIdxs rest,
              by simp [Consul.watchSteps, hf, hg, pollIdxs]⟩
          | none =>
            obtain ⟨t, ht⟩ :=
              ih (mapSet m key (some { w with lastIndex := idx }))
            exact ⟨t, by simp [Consul.watchSteps, hf, hg, pollIdxs, ht]⟩

theorem watchSteps_each_index_snapshot (key : String)
    (steps : List BackendStep) :
    ∀ m : WatchMap,
      (Consul.watchSteps key m steps).indices.length =
        (Consul.watchSteps key m steps).delivered.length +
          errFlag (Consul.watchSteps key m steps).outcome := by
  induction steps with
  | nil => intro m; simp [Consul.watchSteps, errFlag]
  | cons step rest ih =>
    intro m
    cases hf : mapFind m key with
    | none => simp [Consul.watchSteps, hf, errFlag]
    | some ow =>
      cases ow with
      | none => simp [Consul.watchSteps, hf, errFlag]
      | some w =>
        cases step with
        | pollErr e => simp [Consul.watchSteps, hf, errFlag]
        | pollOk idx snap =>
          cases hg : (Consul.Get (fun _ => snap) key).2.2 with
          | some e => simp [Consul.watchSteps, hf, hg, errFlag]
          | none =>
            simp only [Consul.watchSteps, hf, hg]
            simp [ih (mapSet m key (some { w with lastIndex := idx }))]
            omega

/-- C1 counterexample: the very first backend read issued on behalf of
the watch on `"k"` — the long-poll `KV().Get` inside `waitForChange` —
fails, yet `Watch` returns nil (the goroutine merely logs the error,
breaks, and closes the channel, so the `for range` loop ends normally,
consul.go lines 205-212 and 163-176), and the Watch is still registered
in the watches map.  This refutes both the error-return and the
removal part of the claim on that path. -/
theorem watch_read_failure_counterexample :
    (Consul.Watch "k" 1 [] [.pollErr (Err.backend 3)]).outcome =
      .returned none ∧
    mapFind (Consul.Watch "k" 1 [] [.pollErr (Err.backend 3)]).watches "k" =
      some (some { lastIndex := 0, interval := 1 }) := by
  constructor <;> decide

/-- C1 amended: the two failure paths behave differently.  If any
backend read makes the run return an error (only the snapshot `Get`
inside the `Watch` body does so), the loop terminates with that error
returned and the registry entry is overwritten with a nil pointer — the
key remains present in the map, it is not removed.  If the long-poll
read inside `waitForChange` fails, the loop also terminates, but `Watch`
returns nil — the read error is logged, not returned — and the registry
still holds the registered Watch unchanged. -/
theorem watch_read_failure (key : String) (heartbeat : Nat)
    (watches : WatchMap) (steps : List BackendStep) :
    (∀ e, (Consul.Watch key heartbeat watches steps).outcome =
        .returned (some e) →
      mapFind (Consul.Watch key heartbeat watches steps).watches
        (partialFormat key) = some none) ∧
    (∀ e rest,
      Consul.Watch key heartbeat watches (.pollErr e :: rest) =
        { watches := mapSet watches (partialFormat key)
            (some { lastIndex := 0, interval := heartbeat }),
          delivered := [], indices := [],
          outcome := .returned none }) := by
  constructor
  · intro e h
    simp only [Consul.Watch] at h ⊢
    exact watchSteps_returned_err _ _ _ _ h
  · intro e rest
    simp [Consul.Watch, Consul.watchSteps, mapFind_mapSet_self]

/-- Witness for C1's amended theorem: a failing snapshot read leaves a
nil entry under the key, and a failing long-poll read returns nil with
the entry intact. -/
theorem watch_read_failure_witness :
    mapFind
      (Consul.Watch "k" 1 [] [.pollOk 5 (.error (Err.backend 3))]).watches
      (partialFormat "k") = some none ∧
    Consul.Watch "k" 1 [] [.pollErr (Err.backend 3)] =
      { watches := mapSet [] (partialFormat "k")
          (some { lastIndex := 0, interval := 1 }),
        delivered := [], indices := [], outcome := .returned none } :=
  ⟨(watch_read_failure "k" 1 [] [.pollOk 5 (.error (Err.backend 3))]).1
      (Err.backend 3) (by decide),
   (watch_read_failure "k" 1 [] []).2 (Err.backend 3) []⟩

/-- C2 counterexample: a heartbeat expiry is a *successful* long-poll
read whose `meta.LastIndex` equals the index already seen; the loop
stores it and delivers it again unconditionally (consul.go lines
209-210).  With the backend twice reporting index 5 — a trace satisfying
the backend's monotone-index guarantee — the watch assigns `[5, 5]` and
the callback fires twice for version 5, so a version *is* delivered
twice, refuting that part of the claim. -/
theorem watch_duplicate_delivery_counterexample :
    List.Chain' (fun a b => a ≤ b)
      (pollIdxs [.pollOk 5 (.ok (some [1], 5)),
                 .pollOk 5 (.ok (some [1], 5))]) ∧
    (Consul.Watch "k" 1 []
      [.pollOk 5 (.ok (some [1], 5)),
       .pollOk 5 (.ok (some [1], 5))]).indices = [5, 5] ∧
    (Consul.Watch "k" 1 []
      [.pollOk 5 (.ok (some [1], 5)),
       .pollOk 5 (.ok (some [1], 5))]).delivered = [[1], [1]] := by
  refine ⟨?_, ?_, ?_⟩
  · simp [pollIdxs, List.chain'_cons, List.chain'_singleton]
  · decide
  · decide

/-- C2 amended: `LastIndex` is assigned only immediately after a
successful long-poll read, taking exactly the backend-reported indices
in order (the assigned trace is a prefix of the poll results); it is
monotone non-decreasing whenever the backend-reported indices are
non-decreasing (which the spec's data model guarantees per key); and
every assigned index is consumed by a snapshot read before the cursor
moves on (each assignment yields either a delivery or the terminal
failed snapshot).  However, a version can be delivered twice: a
heartbeat expiry returns the unchanged index and the loop re-delivers
it. -/
theorem watch_lastIndex_monotone (key : String) (heartbeat : Nat)
    (watches : WatchMap) (steps : List BackendStep) :
    (∃ t, pollIdxs steps =
        (Consul.Watch key heartbeat watches steps).indices ++ t) ∧
    (List.Chain' (fun a b => a ≤ b) (pollIdxs steps) →
      List.Chain' (fun a b => a ≤ b)
        (Consul.Watch key heartbeat watches steps).indices) ∧
    ((Consul.Watch key heartbeat watches steps).indices.length =
      (Consul.Watch key heartbeat watches steps).delivered.length +
        errFlag (Consul.Watch key heartbeat watches steps).outcome) := by
  have hp := watchSteps_indices_consumed (partialFormat key) steps
    (mapSet watches (partialFormat key)
      (some { lastIndex := 0, interval := heartbeat }))
  have hl := watchSteps_each_index_snapshot (partialFormat key) steps
    (mapSet watches (partialFormat key)
      (some { lastIndex := 0, interval := heartbeat }))
  refine ⟨hp, fun hc => ?_, hl⟩
  obtain ⟨t, ht⟩ := hp
  rw [show Consul.Watch key heartbeat watches steps =
    Consul.watchSteps (partialFormat key)
      (mapSet watches (partialFormat key)
        (some { lastIndex := 0, interval := heartbeat })) steps from rfl]
  rw [ht] at hc
  exact (List.chain'_append.mp hc).1

/-- Witness for C2's amended theorem: a monotone backend trace yields a
monotone `LastIndex` trace. -/
theorem watch_lastIndex_monotone_witness :
    List.Chain' (fun a b => a ≤ b)
      (Consul.Watch "k" 1 []
        [.pollOk 4 (.ok (some [1], 4)),
         .pollOk 6 (.ok (some [2], 6))]).indices :=
  (watch_lastIndex_monotone "k" 1 []
    [.pollOk 4 (.ok (some [1], 4)), .pollOk 6 (.ok (some [2], 6))]).2.1
    (by norm_num [pollIdxs, List.chain'_cons, List.chain'_singleton])

end ConsulStore
